import Mathlib

/-!
# Verification of the FuraiEngine allocation core

A shallow embedding of `src/Engine/Core/src/Allocation.cpp` (the operative
allocator revision) together with proofs about the claims of the
specification.  Machine addresses are modelled as `Nat`; the value `0` is the
null pointer.  A `MemoryPool`'s intrusive free list (next-pointers threaded
through the free elements themselves) is modelled by the list of the free
elements' addresses in stack order, head = `m_freeElementListTop`.
-/

namespace FuraiEngine

/-- `sizeof(U8*)`: the pointer width used by `MemoryPool`'s constructor to
coerce the element size (the engine targets 64-bit platforms). -/
def PTR_SIZE : Nat := 8

/-- State of `MemoryPool` (Allocation.hpp lines 66-126): element size and
count (after coercion), the buffer's address span, the intrusive free list
(as the stack of free element addresses) and the free element counter. -/
structure MemoryPool where
  m_elementSize : Nat
  m_elementCount : Nat
  m_bufferAddressMin : Nat
  m_bufferAddressMax : Nat
  m_freeElementList : List Nat
  m_freeElementCount : Nat
deriving Repr, DecidableEq

/-- The free-list construction loop of `MemoryPool::MemoryPool`
(Allocation.cpp lines 110-117): the buffer is walked in `step`-strides and
each element is pushed on the list, so after `n` pushes the head is the
element at offset `step * (n-1)`. -/
def buildFreeList (base step : Nat) : Nat → List Nat
  | 0 => []
  | n + 1 => (base + step * n) :: buildFreeList base step n

/-- `MemoryPool::MemoryPool(size, count)` (Allocation.cpp lines 81-118).
`base` is the (non-null) address returned by `std::malloc` for the buffer;
a failed `malloc` throws `MemoryException` before any field is used, so only
the successful construction is modelled.  The size is coerced up to
`sizeof(U8*)`, the count up to 1, and the address span `[min, max]` is
recorded exactly as in the source (including the `addrTop < addrEnd`
comparison). -/
def MemoryPool.make (size count base : Nat) : MemoryPool :=
  { m_elementSize := if size < PTR_SIZE then PTR_SIZE else size
    m_elementCount := if count < 1 then 1 else count
    m_bufferAddressMin :=
      if base < base + (if size < PTR_SIZE then PTR_SIZE else size) *
          (if count < 1 then 1 else count) - 1
      then base
      else base + (if size < PTR_SIZE then PTR_SIZE else size) *
          (if count < 1 then 1 else count) - 1
    m_bufferAddressMax :=
      if base < base + (if size < PTR_SIZE then PTR_SIZE else size) *
          (if count < 1 then 1 else count) - 1
      then base + (if size < PTR_SIZE then PTR_SIZE else size) *
          (if count < 1 then 1 else count) - 1
      else base
    m_freeElementList := buildFreeList base (if size < PTR_SIZE then PTR_SIZE else size)
      (if count < 1 then 1 else count)
    m_freeElementCount := if count < 1 then 1 else count }

/-- `MemoryPool::allocate` (Allocation.cpp lines 131-140): pop the free-list
head; if the list is empty return `nullptr` (here `none`) without side
effects. -/
def MemoryPool.allocate (m : MemoryPool) : MemoryPool × Option Nat :=
  match m.m_freeElementList with
  | [] => (m, none)
  | a :: rest =>
    ({ m with m_freeElementCount := m.m_freeElementCount - 1
              m_freeElementList := rest }, some a)

/-- `MemoryPool::deallocate` (Allocation.cpp lines 144-158): if the pointer
is non-null and its address lies in `[m_bufferAddressMin, m_bufferAddressMax]`,
push the element on the free list and increment the free counter; otherwise
do nothing. -/
def MemoryPool.deallocate (m : MemoryPool) (pointer : Nat) : MemoryPool :=
  if pointer ≠ 0 ∧ m.m_bufferAddressMin ≤ pointer ∧ pointer ≤ m.m_bufferAddressMax then
    { m with m_freeElementCount := m.m_freeElementCount + 1
             m_freeElementList := pointer :: m.m_freeElementList }
  else m

/-- `MemoryPool::memoryElementCount` (Allocation.cpp lines 177-180). -/
def MemoryPool.memoryElementCount (m : MemoryPool) : Nat := m.m_elementCount

/-- `MemoryPool::freeMemoryElementCount` (Allocation.cpp lines 184-187). -/
def MemoryPool.freeMemoryElementCount (m : MemoryPool) : Nat := m.m_freeElementCount

/-- `MemoryPool::managedAddresMin` (Allocation.cpp lines 163-166). -/
def MemoryPool.managedAddresMin (m : MemoryPool) : Nat := m.m_bufferAddressMin

/-- `MemoryPool::managedAddresMax` (Allocation.cpp lines 170-173). -/
def MemoryPool.managedAddresMax (m : MemoryPool) : Nat := m.m_bufferAddressMax

/-- `n` consecutive calls of `MemoryPool::allocate`, collecting the returned
pointers; an exhausted pool (a `nullptr` result) stops the sequence. -/
def MemoryPool.allocateN (m : MemoryPool) : Nat → MemoryPool × List Nat
  | 0 => (m, [])
  | n + 1 =>
    match m.allocate with
    | (_, none) => (m, [])
    | (m1, some a) =>
      let r := m1.allocateN n
      (r.1, a :: r.2)

/-- A heap-allocated `MemoryPool*` as stored in `m_poolList`: the pool state
together with an identity `id` standing for the address `newMemoryPool`
obtained from `std::malloc` (Allocation.cpp lines 200-205). -/
structure PoolRef where
  id : Nat
  pool : MemoryPool
deriving Repr, DecidableEq

/-- State of `FixedMemoryManager` (Allocation.hpp lines 129-182): element
shape, the owned pool list (`m_poolCount` is its length), the identity of
the pool `m_allocPool` points at, and a freshness counter supplying
identities for newly heap-allocated pools. -/
structure FixedMemoryManager where
  m_elementSize : Nat
  m_elementCount : Nat
  m_poolList : List PoolRef
  m_allocPool : Nat
  nextId : Nat
deriving Repr, DecidableEq

/-- Dereference of a `MemoryPool*` stored in the list: find the pool with
the given identity. -/
def findPool (id : Nat) : List PoolRef → Option MemoryPool
  | [] => none
  | q :: rest => if q.id = id then some q.pool else findPool id rest

/-- The element-moving loop of `addMemoryPool` (Allocation.cpp lines
283-305): existing pools whose minimum address is below the new pool's are
kept in front, then the new pool, then the remainder in order. -/
def insertPool (p : PoolRef) : List PoolRef → List PoolRef
  | [] => [p]
  | q :: rest =>
    if q.pool.m_bufferAddressMin < p.pool.m_bufferAddressMin then q :: insertPool p rest
    else p :: q :: rest

/-- `addMemoryPool` (Allocation.cpp lines 277-313): heap-allocate a new pool
(identity `id`, buffer at `newBase`) and splice it into the address-sorted
list; returns the new pool and the new list. -/
def addMemoryPool (size count newBase id : Nat) (list : List PoolRef) :
    PoolRef × List PoolRef :=
  let pool : PoolRef := ⟨id, MemoryPool.make size count newBase⟩
  (pool, insertPool pool list)

/-- `removeMemoryPool` (Allocation.cpp lines 320-344): delete the pool at
`index` and close the gap, preserving the order of the rest. -/
def removeMemoryPool (index : Nat) (list : List PoolRef) : List PoolRef :=
  list.eraseIdx index

/-- `MemoryPool::allocate` applied through the `MemoryPool*` with identity
`id` inside the list: the updated list and the popped pointer. -/
def allocInPool (id : Nat) : List PoolRef → List PoolRef × Option Nat
  | [] => ([], none)
  | q :: rest =>
    if q.id = id then
      let r := q.pool.allocate
      (⟨q.id, r.1⟩ :: rest, r.2)
    else
      let r := allocInPool id rest
      (q :: r.1, r.2)

/-- The minimum buffer addresses of the pools in list order (the keys of the
address-sorted pool sequence). -/
def poolMins (list : List PoolRef) : List Nat :=
  list.map fun q => q.pool.m_bufferAddressMin

/-- Result of one `FixedMemoryManager::allocate` call.
`ub`: the target pointer dangles and dereferencing it is undefined
behavior.  `thrown`: `MemoryException` was raised while growing the pool
set (`std::malloc` failure, modelled by `newBase = 0`).  `ok state computed
returned`: the call completed, the discarded expression
`m_allocPool->allocate()` evaluated to `computed`, and `returned` is the
value the function hands to its caller — always `none`, because the
function body (Allocation.cpp lines 367-381) ends without a `return`
statement, so no value is returned. -/
inductive FixedAllocOutcome where
  | ub
  | thrown
  | ok (state : FixedMemoryManager) (computed : Option Nat) (returned : Option Nat)
deriving Repr, DecidableEq

/-- The discarded `m_allocPool->allocate()` value of an `ok` outcome. -/
def FixedAllocOutcome.computedValue : FixedAllocOutcome → Option Nat
  | .ok _ c _ => c
  | _ => none

/-- The value actually returned to the caller by an `ok` outcome. -/
def FixedAllocOutcome.returnedValue : FixedAllocOutcome → Option Nat
  | .ok _ _ r => r
  | _ => none

/-- Whether the call completed without exception or undefined behavior. -/
def FixedAllocOutcome.isOk : FixedAllocOutcome → Bool
  | .ok _ _ _ => true
  | _ => false

/-- The post-state of an `ok` outcome (defaulting to `d`). -/
def FixedAllocOutcome.stateD (d : FixedMemoryManager) : FixedAllocOutcome → FixedMemoryManager
  | .ok st _ _ => st
  | _ => d

/-- `FixedMemoryManager::FixedMemoryManager(size, count)` (Allocation.cpp
lines 350-356): one pool is created (`initMemoryPoolList`, buffer at
`base`) and becomes both the whole list and the allocation target. -/
def FixedMemoryManager.make (size count base : Nat) : FixedMemoryManager :=
  { m_elementSize := size
    m_elementCount := count
    m_poolList := [⟨0, MemoryPool.make size count base⟩]
    m_allocPool := 0
    nextId := 1 }

/-- `FixedMemoryManager::allocate` (Allocation.cpp lines 367-381): if the
target pool is exhausted, grow via `addMemoryPool` and retarget to the new
pool; then evaluate `m_allocPool->allocate()` — and fall off the end of the
function without returning it.  `newBase` is the buffer address the system
allocator would hand to a new pool; `newBase = 0` models a `std::malloc`
failure, which surfaces as a thrown `MemoryException`. -/
def FixedMemoryManager.allocate (m : FixedMemoryManager) (newBase : Nat) : FixedAllocOutcome :=
  match findPool m.m_allocPool m.m_poolList with
  | none => .ub
  | some target =>
    if target.freeMemoryElementCount = 0 then
      if newBase = 0 then .thrown
      else
        let grown := addMemoryPool m.m_elementSize m.m_elementCount newBase m.nextId m.m_poolList
        let m1 : FixedMemoryManager :=
          { m with m_poolList := grown.2, m_allocPool := grown.1.id, nextId := m.nextId + 1 }
        let r := allocInPool m1.m_allocPool m1.m_poolList
        .ok { m1 with m_poolList := r.1 } r.2 none
    else
      let r := allocInPool m.m_allocPool m.m_poolList
      .ok { m with m_poolList := r.1 } r.2 none

/-- `static_cast<USize>(l - r * 0.5f)` (Allocation.cpp line 403): the float
`l - r/2` truncated toward zero.  For the small values arising here the
float arithmetic is exact; truncation of a value in `(-1, 0]` gives `0`,
and casting a float `≤ -1` to an unsigned integer is undefined behavior
(`none`). -/
def castHalfDiff (l r : Nat) : Option Nat :=
  if r ≤ 2 * l then some ((2 * l - r) / 2)
  else if r = 2 * l + 1 then some 0
  else none

/-- The pool-search loop of `FixedMemoryManager::deallocate`
(Allocation.cpp lines 390-404), with explicit fuel.  The loop runs while
`1 < r - l` in unsigned arithmetic, i.e. exits only when `r = l` or
`r = l + 1`; `none` means the loop has not terminated within `fuel`
iterations or hit undefined behavior (an out-of-range pool read or the
negative float-to-unsigned cast). -/
def searchPoolLoop (mins : List Nat) (addr : Nat) : Nat → Nat → Nat → Nat → Option Nat
  | 0, _, _, _ => none
  | fuel + 1, l, r, p =>
    if r = l ∨ r = l + 1 then some p
    else
      match mins.get? p with
      | none => none
      | some mn =>
        let lr := if mn ≤ addr then (p, r) else (l, p)
        match castHalfDiff lr.1 lr.2 with
        | none => none
        | some d => searchPoolLoop mins addr fuel lr.1 lr.2 (lr.1 + d)

/-- The full search of `FixedMemoryManager::deallocate`: `l = 0`,
`r = m_poolCount`, `p = static_cast<USize>(r * 0.5f) = r / 2`. -/
def searchPool (mins : List Nat) (addr fuel : Nat) : Option Nat :=
  searchPoolLoop mins addr fuel 0 mins.length (mins.length / 2)

/-- `FixedMemoryManager::deallocate` (Allocation.cpp lines 386-412): search
the pool list for the pointer's owner, free the element there, and — when
the hit pool's free count equals its capacity — remove that pool via
`removeMemoryPool`.  There is no more-than-one-pool guard, and `m_allocPool`
is never updated.  `none` models a run that never terminates or hits
undefined behavior. -/
def FixedMemoryManager.deallocate (m : FixedMemoryManager) (fuel addr : Nat) :
    Option FixedMemoryManager :=
  match searchPool (poolMins m.m_poolList) addr fuel with
  | none => none
  | some p =>
    match m.m_poolList.get? p with
    | none => none
    | some q =>
      let q1 : PoolRef := ⟨q.id, q.pool.deallocate addr⟩
      let list1 := m.m_poolList.set p q1
      if q1.pool.memoryElementCount = q1.pool.freeMemoryElementCount then
        some { m with m_poolList := removeMemoryPool p list1 }
      else
        some { m with m_poolList := list1 }

/-- `FixedMemoryManager::poolManagedElementCount()` getter (Allocation.cpp
lines 417-420). -/
def FixedMemoryManager.poolManagedElementCount (m : FixedMemoryManager) : Nat :=
  m.m_elementCount

/-- `FixedMemoryManager::poolManagedElementCount(count)` setter
(Allocation.cpp lines 425-428): the count is coerced up to 1. -/
def FixedMemoryManager.setPoolManagedElementCount (m : FixedMemoryManager) (count : Nat) :
    FixedMemoryManager :=
  { m with m_elementCount := if count < 1 then 1 else count }

/-- One externally visible `FixedMemoryManager` call, carrying the oracle
data of the run: the buffer address the system allocator would return for a
pool created by this call, and the loop fuel for `deallocate`. -/
inductive FixedOp where
  | alloc (newBase : Nat)
  | dealloc (fuel addr : Nat)
deriving Repr, DecidableEq

/-- Run a sequence of calls; `none` as soon as one call throws, loops
forever, or hits undefined behavior. -/
def FixedMemoryManager.run : List FixedOp → FixedMemoryManager → Option FixedMemoryManager
  | [], m => some m
  | .alloc newBase :: ops, m =>
    match m.allocate newBase with
    | .ok st _ _ => FixedMemoryManager.run ops st
    | _ => none
  | .dealloc fuel addr :: ops, m =>
    match m.deallocate fuel addr with
    | some m1 => FixedMemoryManager.run ops m1
    | none => none

/-- A buffer address the system allocator could hand to a pool grown by `m`:
non-null and disjoint from every live pool's buffer (what a correct
`std::malloc` guarantees). -/
def FreshPoolBase (m : FixedMemoryManager) (b : Nat) : Prop :=
  0 < b ∧ ∀ q ∈ m.m_poolList,
    (MemoryPool.make m.m_elementSize m.m_elementCount b).m_bufferAddressMax <
        q.pool.m_bufferAddressMin ∨
      q.pool.m_bufferAddressMax <
        (MemoryPool.make m.m_elementSize m.m_elementCount b).m_bufferAddressMin

/-- The `FixedMemoryManager` states reachable from construction by
allocate/deallocate calls of defined behavior, where every pool grown along
the way gets a fresh (disjoint, non-null) buffer from the system
allocator. -/
inductive FixedReach : FixedMemoryManager → Prop where
  | init (size count base : Nat) (hbase : 0 < base) :
      FixedReach (FixedMemoryManager.make size count base)
  | alloc (m st : FixedMemoryManager) (b : Nat) (c r : Option Nat)
      (hm : FixedReach m) (hfresh : FreshPoolBase m b)
      (h : m.allocate b = .ok st c r) : FixedReach st
  | dealloc (m m1 : FixedMemoryManager) (fuel addr : Nat)
      (hm : FixedReach m) (h : m.deallocate fuel addr = some m1) : FixedReach m1

/-- `DynamicMemoryManager::SIZE16` (Allocation.hpp line 187). -/
def SIZE16 : Nat := 16
/-- `DynamicMemoryManager::SIZE32` (Allocation.hpp line 188). -/
def SIZE32 : Nat := 32
/-- `DynamicMemoryManager::SIZE64` (Allocation.hpp line 189). -/
def SIZE64 : Nat := 64
/-- `DynamicMemoryManager::SIZE128` (Allocation.hpp line 190). -/
def SIZE128 : Nat := 128
/-- `DynamicMemoryManager::SIZE256` (Allocation.hpp line 191). -/
def SIZE256 : Nat := 256

/-- The fixed size-class ladder of `DynamicMemoryManager`. -/
def sizeClassLadder : List Nat := [SIZE16, SIZE32, SIZE64, SIZE128, SIZE256]

/-- The class-selection chain of `DynamicMemoryManager::allocate`
(Allocation.cpp lines 456-482): the first `size <= SIZEk` branch taken, or
`none` for the final `std::malloc` branch.  `DynamicMemoryManager::deallocate`
(lines 488-514) runs the identical chain on its `size` argument. -/
def sizeClassOf (size : Nat) : Option Nat :=
  if size ≤ SIZE16 then some SIZE16
  else if size ≤ SIZE32 then some SIZE32
  else if size ≤ SIZE64 then some SIZE64
  else if size ≤ SIZE128 then some SIZE128
  else if size ≤ SIZE256 then some SIZE256
  else none

/-- State of `DynamicMemoryManager` (Allocation.hpp lines 185-276): one
`FixedMemoryManager` per size class. -/
structure DynamicMemoryManager where
  m_memory16 : FixedMemoryManager
  m_memory32 : FixedMemoryManager
  m_memory64 : FixedMemoryManager
  m_memory128 : FixedMemoryManager
  m_memory256 : FixedMemoryManager
deriving Repr, DecidableEq

/-- `DynamicMemoryManager::DynamicMemoryManager` (Allocation.cpp lines
443-449): one fixed manager per class; `b16 … b256` are the buffer
addresses the system allocator hands to the five initial pools. -/
def DynamicMemoryManager.make (c16 c32 c64 c128 c256 b16 b32 b64 b128 b256 : Nat) :
    DynamicMemoryManager :=
  { m_memory16 := FixedMemoryManager.make SIZE16 c16 b16
    m_memory32 := FixedMemoryManager.make SIZE32 c32 b32
    m_memory64 := FixedMemoryManager.make SIZE64 c64 b64
    m_memory128 := FixedMemoryManager.make SIZE128 c128 b128
    m_memory256 := FixedMemoryManager.make SIZE256 c256 b256 }

/-- Result of one `DynamicMemoryManager::allocate` call: `ub`/`thrown` as
propagated from the pooled path, or `ok state returned` where `returned` is
the value handed back to the caller.  On the pooled paths this is the
(absent) value of the inner `FixedMemoryManager::allocate` call; on the
oversized path it is the raw `std::malloc(size)` result — returned without
a null check. -/
inductive DynAllocOutcome where
  | ub
  | thrown
  | ok (state : DynamicMemoryManager) (returned : Option Nat)
deriving Repr, DecidableEq

/-- The value returned to the caller by an `ok` outcome. -/
def DynAllocOutcome.returnedValue : DynAllocOutcome → Option Nat
  | .ok _ r => r
  | _ => none

/-- Whether the call completed without exception or undefined behavior. -/
def DynAllocOutcome.isOk : DynAllocOutcome → Bool
  | .ok _ _ => true
  | _ => false

/-- The post-state of an `ok` outcome (defaulting to `d`). -/
def DynAllocOutcome.stateD (d : DynamicMemoryManager) : DynAllocOutcome → DynamicMemoryManager
  | .ok st _ => st
  | _ => d

/-- `DynamicMemoryManager::allocate` (Allocation.cpp lines 456-482): route
by the size-class chain; above the largest class, `return std::malloc(size)`
directly (`sysPtr` is the oracle for that call, `0` = allocation failure,
returned unchecked).  `newBase` is the oracle for a pool grown by the
selected class's fixed manager. -/
def DynamicMemoryManager.allocate (d : DynamicMemoryManager) (sysPtr newBase size : Nat) :
    DynAllocOutcome :=
  if size ≤ SIZE16 then
    match d.m_memory16.allocate newBase with
    | .ub => .ub
    | .thrown => .thrown
    | .ok st _ r => .ok { d with m_memory16 := st } r
  else if size ≤ SIZE32 then
    match d.m_memory32.allocate newBase with
    | .ub => .ub
    | .thrown => .thrown
    | .ok st _ r => .ok { d with m_memory32 := st } r
  else if size ≤ SIZE64 then
    match d.m_memory64.allocate newBase with
    | .ub => .ub
    | .thrown => .thrown
    | .ok st _ r => .ok { d with m_memory64 := st } r
  else if size ≤ SIZE128 then
    match d.m_memory128.allocate newBase with
    | .ub => .ub
    | .thrown => .thrown
    | .ok st _ r => .ok { d with m_memory128 := st } r
  else if size ≤ SIZE256 then
    match d.m_memory256.allocate newBase with
    | .ub => .ub
    | .thrown => .thrown
    | .ok st _ r => .ok { d with m_memory256 := st } r
  else
    .ok d (some sysPtr)

/-- `DynamicMemoryManager::deallocate` (Allocation.cpp lines 488-514): the
same size chain; above the largest class the pointer goes to `std::free`,
which leaves the pooled state untouched. -/
def DynamicMemoryManager.deallocate (d : DynamicMemoryManager) (fuel addr size : Nat) :
    Option DynamicMemoryManager :=
  if size ≤ SIZE16 then
    (d.m_memory16.deallocate fuel addr).map fun st => { d with m_memory16 := st }
  else if size ≤ SIZE32 then
    (d.m_memory32.deallocate fuel addr).map fun st => { d with m_memory32 := st }
  else if size ≤ SIZE64 then
    (d.m_memory64.deallocate fuel addr).map fun st => { d with m_memory64 := st }
  else if size ≤ SIZE128 then
    (d.m_memory128.deallocate fuel addr).map fun st => { d with m_memory128 := st }
  else if size ≤ SIZE256 then
    (d.m_memory256.deallocate fuel addr).map fun st => { d with m_memory256 := st }
  else
    some d

/-- Selector for the five size classes, standing for the five
`poolNNElementCount` accessor pairs of `DynamicMemoryManager`
(Allocation.cpp lines 518-584). -/
inductive SizeClass where
  | s16 | s32 | s64 | s128 | s256
deriving Repr, DecidableEq

/-- `DynamicMemoryManager::poolNNElementCount()` getters (Allocation.cpp
lines 518-577). -/
def DynamicMemoryManager.poolElementCount (d : DynamicMemoryManager) : SizeClass → Nat
  | .s16 => d.m_memory16.poolManagedElementCount
  | .s32 => d.m_memory32.poolManagedElementCount
  | .s64 => d.m_memory64.poolManagedElementCount
  | .s128 => d.m_memory128.poolManagedElementCount
  | .s256 => d.m_memory256.poolManagedElementCount

/-- `DynamicMemoryManager::poolNNElementCount(count)` setters
(Allocation.cpp lines 525-584). -/
def DynamicMemoryManager.setPoolElementCount (d : DynamicMemoryManager) :
    SizeClass → Nat → DynamicMemoryManager
  | .s16, n => { d with m_memory16 := d.m_memory16.setPoolManagedElementCount n }
  | .s32, n => { d with m_memory32 := d.m_memory32.setPoolManagedElementCount n }
  | .s64, n => { d with m_memory64 := d.m_memory64.setPoolManagedElementCount n }
  | .s128, n => { d with m_memory128 := d.m_memory128.setPoolManagedElementCount n }
  | .s256, n => { d with m_memory256 := d.m_memory256.setPoolManagedElementCount n }

/-- A small concrete `DynamicMemoryManager` (one 2-element pool in the
16-byte class, single-element pools elsewhere, buffers at distinct
addresses), used to evaluate the allocator on concrete inputs. -/
def sampleDynamicManager : DynamicMemoryManager :=
  DynamicMemoryManager.make 2 1 1 1 1 100 1000 2000 3000 4000

/-- `INIT_COUNT16` (Allocation.cpp line 592). -/
def INIT_COUNT16 : Nat := 32
/-- `INIT_COUNT32` (Allocation.cpp line 593). -/
def INIT_COUNT32 : Nat := 32
/-- `INIT_COUNT64` (Allocation.cpp line 594). -/
def INIT_COUNT64 : Nat := 32
/-- `INIT_COUNT128` (Allocation.cpp line 595). -/
def INIT_COUNT128 : Nat := 16
/-- `INIT_COUNT256` (Allocation.cpp line 596). -/
def INIT_COUNT256 : Nat := 16

/-- `initGlobalMemory` (Allocation.cpp lines 601-612): the one-time
construction of the process-wide `DynamicMemoryManager` with the built-in
initial pool element counts.  The five concrete base addresses stand for
the five initial buffers handed out by `std::malloc`. -/
def initGlobalMemory : DynamicMemoryManager :=
  DynamicMemoryManager.make INIT_COUNT16 INIT_COUNT32 INIT_COUNT64 INIT_COUNT128 INIT_COUNT256
    4096 8192 12288 16384 20480

/-- The process-wide state behind `GlobalMemoryManager` (Allocation.cpp
lines 598-599): `g_globalMemoryControl` paired with an instance identity
(the address `initGlobalMemory` obtained from `std::malloc`), and the
number of times `initGlobalMemory` has run (`g_initGlobalMemoryFlag`
records whether it is nonzero). -/
structure GlobalMemoryState where
  g_globalMemoryControl : Option (Nat × DynamicMemoryManager)
  g_initCount : Nat
deriving Repr, DecidableEq

/-- The state before any call: no manager constructed. -/
def initialGlobalMemoryState : GlobalMemoryState :=
  { g_globalMemoryControl := none, g_initCount := 0 }

/-- `std::call_once(g_initGlobalMemoryFlag, initGlobalMemory)`: construct
the manager exactly when it does not exist yet, assigning it the next
instance identity. -/
def callOnceInitGlobalMemory (s : GlobalMemoryState) : GlobalMemoryState :=
  match s.g_globalMemoryControl with
  | some _ => s
  | none =>
    { g_globalMemoryControl := some (s.g_initCount, initGlobalMemory)
      g_initCount := s.g_initCount + 1 }

/-- One externally visible `GlobalMemoryManager` call (all of them acquire
`g_globalMemoryControlMutex`, run the `call_once`, then delegate,
Allocation.cpp lines 618-724), with the oracle data the delegate needs. -/
inductive GlobalOp where
  | alloc (sysPtr newBase size : Nat)
  | dealloc (fuel addr size : Nat)
  | getPoolElementCount (cls : SizeClass)
  | setPoolElementCount (cls : SizeClass) (count : Nat)
deriving Repr, DecidableEq

/-- One serialized `GlobalMemoryManager` call: lock, `call_once`, delegate
to the contained `DynamicMemoryManager`.  `none` if the delegate throws,
never terminates, or hits undefined behavior. -/
def globalStep (op : GlobalOp) (s : GlobalMemoryState) : Option GlobalMemoryState :=
  let s1 := callOnceInitGlobalMemory s
  match s1.g_globalMemoryControl with
  | none => none
  | some (id, d) =>
    match op with
    | .alloc sysPtr newBase size =>
      match d.allocate sysPtr newBase size with
      | .ok d1 _ => some { s1 with g_globalMemoryControl := some (id, d1) }
      | _ => none
    | .dealloc fuel addr size =>
      (d.deallocate fuel addr size).map fun d1 =>
        { s1 with g_globalMemoryControl := some (id, d1) }
    | .getPoolElementCount _ => some s1
    | .setPoolElementCount cls n =>
      some { s1 with g_globalMemoryControl := some (id, d.setPoolElementCount cls n) }

/-- A sequence of serialized `GlobalMemoryManager` calls (the global mutex
totally orders all calls, so every concurrent history is one such
sequence). -/
def globalRun : List GlobalOp → GlobalMemoryState → Option GlobalMemoryState
  | [], s => some s
  | op :: ops, s =>
    match globalStep op s with
    | some s1 => globalRun ops s1
    | none => none

/-- The facade is in its steady state: the one-time construction has run
exactly once and the manager it created (instance identity 0) is the one
every call delegates to. -/
def GlobalInv (s : GlobalMemoryState) : Prop :=
  s.g_initCount = 1 ∧ ∃ d, s.g_globalMemoryControl = some (0, d)

/-- The fixed manager of a single one-element pool at 100 after its element
has been allocated: one fully used pool. -/
def onePoolExhausted : FixedMemoryManager :=
  ((FixedMemoryManager.make 8 1 100).allocate 0).stateD (FixedMemoryManager.make 8 1 100)

/-- Two exhausted one-element pools at 100 and 200; the allocation target
is the grown pool (identity 1). -/
def twoPoolManager : FixedMemoryManager :=
  (onePoolExhausted.allocate 200).stateD onePoolExhausted

/-- Three exhausted one-element pools at 100, 200 and 300. -/
def threePoolManager : FixedMemoryManager :=
  (twoPoolManager.allocate 300).stateD twoPoolManager

-- ===================================================================
-- Theorems
-- ===================================================================

theorem buildFreeList_length (base step : Nat) : ∀ n, (buildFreeList base step n).length = n := by
  intro n
  induction n with
  | zero => rfl
  | succ k ih => simp [buildFreeList, ih]

theorem buildFreeList_mem {base step n a : Nat} :
    a ∈ buildFreeList base step n ↔ ∃ i, i < n ∧ a = base + step * i := by
  induction n with
  | zero => simp [buildFreeList]
  | succ k ih =>
    simp only [buildFreeList, List.mem_cons, ih]
    constructor
    · rintro (rfl | ⟨i, hi, rfl⟩)
      · exact ⟨k, Nat.lt_succ_self k, rfl⟩
      · exact ⟨i, Nat.lt_succ_of_lt hi, rfl⟩
    · rintro ⟨i, hi, rfl⟩
      rcases Nat.lt_succ_iff_lt_or_eq.mp hi with h | rfl
      · exact Or.inr ⟨i, h, rfl⟩
      · exact Or.inl rfl

theorem buildFreeList_nodup (base : Nat) {step : Nat} (hs : 0 < step) :
    ∀ n, (buildFreeList base step n).Nodup := by
  intro n
  induction n with
  | zero => simp [buildFreeList]
  | succ k ih =>
    refine List.nodup_cons.mpr ⟨?_, ih⟩
    intro hmem
    obtain ⟨i, hi, he⟩ := buildFreeList_mem.mp hmem
    have : step * i < step * k := (Nat.mul_lt_mul_left hs).mpr hi
    omega

/-- The coerced element byte count of a pool is at least 2 (in fact at least
`PTR_SIZE`), so the buffer spans more than one address. -/
theorem elementBytes_ge_two (size count : Nat) :
    2 ≤ (if size < PTR_SIZE then PTR_SIZE else size) * (if count < 1 then 1 else count) := by
  have hp : PTR_SIZE = 8 := rfl
  have h1 : 2 ≤ if size < PTR_SIZE then PTR_SIZE else size := by
    split <;> omega
  have h2 : 1 ≤ if count < 1 then 1 else count := by
    split <;> omega
  calc 2 = 2 * 1 := by omega
    _ ≤ (if size < PTR_SIZE then PTR_SIZE else size) * (if count < 1 then 1 else count) :=
      Nat.mul_le_mul h1 h2

theorem MemoryPool.make_min (size count base : Nat) :
    (MemoryPool.make size count base).m_bufferAddressMin = base := by
  have h := elementBytes_ge_two size count
  simp only [MemoryPool.make]
  rw [if_pos (by omega)]

theorem MemoryPool.make_max (size count base : Nat) :
    (MemoryPool.make size count base).m_bufferAddressMax =
      base + (if size < PTR_SIZE then PTR_SIZE else size) * (if count < 1 then 1 else count) - 1 := by
  have h := elementBytes_ge_two size count
  simp only [MemoryPool.make]
  rw [if_pos (by omega)]

theorem MemoryPool.deallocate_min (m : MemoryPool) (p : Nat) :
    (m.deallocate p).m_bufferAddressMin = m.m_bufferAddressMin := by
  unfold MemoryPool.deallocate
  split <;> rfl

theorem MemoryPool.deallocate_max (m : MemoryPool) (p : Nat) :
    (m.deallocate p).m_bufferAddressMax = m.m_bufferAddressMax := by
  unfold MemoryPool.deallocate
  split <;> rfl

theorem MemoryPool.deallocate_elementCount (m : MemoryPool) (p : Nat) :
    (m.deallocate p).m_elementCount = m.m_elementCount := by
  unfold MemoryPool.deallocate
  split <;> rfl

/-- C8: the slab pool's deallocate is a defensive no-op on any address
outside the recorded span `[min, max]` (a null pointer included), and for an
in-span address it pushes the element on the free-list head and increments
the free count by exactly one. -/
theorem C8_pool_deallocate_span_check (m : MemoryPool) (p : Nat)
    (hmin : 0 < m.m_bufferAddressMin) :
    ((p = 0 ∨ p < m.m_bufferAddressMin ∨ m.m_bufferAddressMax < p) →
      m.deallocate p = m) ∧
    (m.m_bufferAddressMin ≤ p → p ≤ m.m_bufferAddressMax →
      m.deallocate p =
        { m with m_freeElementCount := m.m_freeElementCount + 1
                 m_freeElementList := p :: m.m_freeElementList }) := by
  constructor
  · intro hout
    unfold MemoryPool.deallocate
    rw [if_neg]
    rintro ⟨hp, hlo, hhi⟩
    rcases hout with rfl | h | h <;> omega
  · intro hlo hhi
    unfold MemoryPool.deallocate
    rw [if_pos]
    exact ⟨by omega, hlo, hhi⟩

/-- Witness for C8 on a concrete pool: a pool over `[100, 115]`, the foreign
address 50 is ignored, the owned address 100 is pushed back. -/
theorem C8_pool_deallocate_span_check_witness :
    (MemoryPool.make 8 2 100).deallocate 50 = MemoryPool.make 8 2 100 ∧
    ((MemoryPool.make 8 2 100).deallocate 100).m_freeElementCount =
      (MemoryPool.make 8 2 100).m_freeElementCount + 1 := by
  have h := C8_pool_deallocate_span_check (MemoryPool.make 8 2 100) 50 (by decide)
  have h2 := C8_pool_deallocate_span_check (MemoryPool.make 8 2 100) 100 (by decide)
  refine ⟨h.1 (by right; left; decide), ?_⟩
  rw [h2.2 (by decide) (by decide)]

theorem MemoryPool.allocateN_eq :
    ∀ (n : Nat) (m : MemoryPool), n ≤ m.m_freeElementList.length →
      m.allocateN n =
        ({ m with m_freeElementCount := m.m_freeElementCount - n
                  m_freeElementList := m.m_freeElementList.drop n },
         m.m_freeElementList.take n) := by
  intro n
  induction n with
  | zero => intro m _; rfl
  | succ k ih =>
    intro m hlen
    cases hl : m.m_freeElementList with
    | nil => rw [hl] at hlen; simp at hlen
    | cons a rest =>
      have halloc : m.allocate =
          ({ m with m_freeElementCount := m.m_freeElementCount - 1
                    m_freeElementList := rest }, some a) := by
        unfold MemoryPool.allocate
        rw [hl]
      have hrest : k ≤ rest.length := by
        rw [hl] at hlen
        simpa using Nat.lt_succ_iff.mp (Nat.lt_of_lt_of_le (Nat.lt_succ_self k) hlen)
      simp only [MemoryPool.allocateN, halloc]
      rw [ih ({ m with m_freeElementCount := m.m_freeElementCount - 1
                       m_freeElementList := rest }) (by exact hrest)]
      simp only [hl, List.drop_succ_cons, List.take_succ_cons]
      have hc : m.m_freeElementCount - 1 - k = m.m_freeElementCount - (k + 1) := by omega
      rw [hc]

/-- Folding `MemoryPool::deallocate` over a list of non-null in-span
addresses increments the free count once per address. -/
theorem MemoryPool.foldl_deallocate_count :
    ∀ (ds : List Nat) (m : MemoryPool),
      (∀ a ∈ ds, a ≠ 0 ∧ m.m_bufferAddressMin ≤ a ∧ a ≤ m.m_bufferAddressMax) →
      (ds.foldl MemoryPool.deallocate m).m_freeElementCount =
        m.m_freeElementCount + ds.length := by
  intro ds
  induction ds with
  | nil => intro m _; rfl
  | cons a rest ih =>
    intro m hall
    have ha := hall a (List.mem_cons_self a rest)
    have hstep : m.deallocate a =
        { m with m_freeElementCount := m.m_freeElementCount + 1
                 m_freeElementList := a :: m.m_freeElementList } := by
      unfold MemoryPool.deallocate
      rw [if_pos ⟨ha.1, ha.2.1, ha.2.2⟩]
    simp only [List.foldl_cons, hstep]
    rw [ih _ (by intro b hb; exact hall b (List.mem_cons_of_mem a hb))]
    simp only [List.length_cons]
    omega

/-- Every address in a fresh pool's free list is non-null and lies in the
pool's recorded span. -/
theorem MemoryPool.make_list_mem_span (size count base : Nat) (hbase : 0 < base) :
    ∀ a ∈ (MemoryPool.make size count base).m_freeElementList,
      a ≠ 0 ∧ (MemoryPool.make size count base).m_bufferAddressMin ≤ a ∧
        a ≤ (MemoryPool.make size count base).m_bufferAddressMax := by
  intro a ha
  have hlist : (MemoryPool.make size count base).m_freeElementList =
      buildFreeList base (if size < PTR_SIZE then PTR_SIZE else size)
        (if count < 1 then 1 else count) := rfl
  rw [hlist] at ha
  obtain ⟨i, hi, rfl⟩ := buildFreeList_mem.mp ha
  have hp : PTR_SIZE = 8 := rfl
  have hs : 2 ≤ if size < PTR_SIZE then PTR_SIZE else size := by split <;> omega
  have hmul : (if size < PTR_SIZE then PTR_SIZE else size) * (i + 1) ≤
      (if size < PTR_SIZE then PTR_SIZE else size) * (if count < 1 then 1 else count) :=
    Nat.mul_le_mul_left _ (by omega)
  rw [MemoryPool.make_min, MemoryPool.make_max]
  have hexp : (if size < PTR_SIZE then PTR_SIZE else size) * (i + 1) =
      (if size < PTR_SIZE then PTR_SIZE else size) * i +
        (if size < PTR_SIZE then PTR_SIZE else size) := by ring
  rw [hexp] at hmul
  refine ⟨by omega, by omega, by omega⟩

/-- C6: on a freshly constructed pool of capacity `c` and any `n ≤ c`, the
`n` allocates return `n` pairwise-distinct non-null pointers, and after
deallocating those same `n` pointers (each exactly once, in any order) the
free element count is back at `c`. -/
theorem C6_pool_alloc_dealloc_roundtrip (size count base n : Nat) (ds : List Nat)
    (hbase : 0 < base)
    (hn : n ≤ (MemoryPool.make size count base).m_elementCount)
    (hperm : ds.Perm ((MemoryPool.make size count base).allocateN n).2) :
    ((MemoryPool.make size count base).allocateN n).2.Nodup ∧
    ((MemoryPool.make size count base).allocateN n).2.length = n ∧
    (∀ a ∈ ((MemoryPool.make size count base).allocateN n).2, a ≠ 0) ∧
    (ds.foldl MemoryPool.deallocate ((MemoryPool.make size count base).allocateN n).1).m_freeElementCount
      = (MemoryPool.make size count base).m_elementCount := by
  have hlist : (MemoryPool.make size count base).m_freeElementList =
      buildFreeList base (if size < PTR_SIZE then PTR_SIZE else size)
        (if count < 1 then 1 else count) := rfl
  have hcount : (MemoryPool.make size count base).m_elementCount =
      (if count < 1 then 1 else count) := rfl
  have hfree : (MemoryPool.make size count base).m_freeElementCount =
      (if count < 1 then 1 else count) := rfl
  have hlen : (MemoryPool.make size count base).m_freeElementList.length =
      (if count < 1 then 1 else count) := by
    rw [hlist, buildFreeList_length]
  have hn' : n ≤ (MemoryPool.make size count base).m_freeElementList.length := by
    rw [hlen]; rw [hcount] at hn; exact hn
  have heq := MemoryPool.allocateN_eq n (MemoryPool.make size count base) hn'
  have hs : 0 < if size < PTR_SIZE then PTR_SIZE else size := by
    have hp : PTR_SIZE = 8 := rfl
    split <;> omega
  have hnodupAll : (MemoryPool.make size count base).m_freeElementList.Nodup := by
    rw [hlist]; exact buildFreeList_nodup base hs _
  have htakemem : ∀ a ∈ (MemoryPool.make size count base).m_freeElementList.take n,
      a ≠ 0 ∧ (MemoryPool.make size count base).m_bufferAddressMin ≤ a ∧
        a ≤ (MemoryPool.make size count base).m_bufferAddressMax := by
    intro a ha
    exact MemoryPool.make_list_mem_span size count base hbase a
      (List.take_subset n _ ha)
  refine ⟨?_, ?_, ?_, ?_⟩
  · rw [heq]
    exact hnodupAll.sublist (List.take_sublist n _)
  · rw [heq, List.length_take, hlen]
    rw [hcount] at hn
    omega
  · rw [heq]
    intro a ha
    exact (htakemem a ha).1
  · rw [heq] at hperm ⊢
    have hdmem : ∀ a ∈ ds, a ≠ 0 ∧
        ({ MemoryPool.make size count base with
            m_freeElementCount := (MemoryPool.make size count base).m_freeElementCount - n
            m_freeElementList := (MemoryPool.make size count base).m_freeElementList.drop n } :
          MemoryPool).m_bufferAddressMin ≤ a ∧
        a ≤ ({ MemoryPool.make size count base with
            m_freeElementCount := (MemoryPool.make size count base).m_freeElementCount - n
            m_freeElementList := (MemoryPool.make size count base).m_freeElementList.drop n } :
          MemoryPool).m_bufferAddressMax := by
      intro a ha
      exact htakemem a (hperm.mem_iff.mp ha)
    rw [MemoryPool.foldl_deallocate_count ds _ hdmem]
    have hdslen : ds.length = n := by
      rw [hperm.length_eq, List.length_take, hlen]
      rw [hcount] at hn
      omega
    simp only [hfree, hcount, hdslen]
    rw [hcount] at hn
    omega

/-- Witness for C6: a pool of element size 8, capacity 2 at base 100; both
elements are allocated and freed in swapped order. -/
theorem C6_pool_alloc_dealloc_roundtrip_witness :
    ((MemoryPool.make 8 2 100).allocateN 2).2.Nodup ∧
    ((MemoryPool.make 8 2 100).allocateN 2).2.length = 2 ∧
    (∀ a ∈ ((MemoryPool.make 8 2 100).allocateN 2).2, a ≠ 0) ∧
    (([100, 108] : List Nat).foldl MemoryPool.deallocate
        ((MemoryPool.make 8 2 100).allocateN 2).1).m_freeElementCount =
      (MemoryPool.make 8 2 100).m_elementCount :=
  C6_pool_alloc_dealloc_roundtrip 8 2 100 2 [100, 108] (by decide) (by decide) (by decide)

/-- Removing an in-range index shortens a list by one. -/
theorem length_eraseIdx_of_lt {α : Type} :
    ∀ (l : List α) (i : Nat), i < l.length → (l.eraseIdx i).length = l.length - 1 := by
  intro l
  induction l with
  | nil => intro i hi; simp at hi
  | cons a rest ih =>
    intro i hi
    cases i with
    | zero => simp [List.eraseIdx]
    | succ j =>
      simp only [List.eraseIdx, List.length_cons]
      rw [ih j (by simpa using Nat.lt_of_succ_lt_succ hi)]
      have : j < rest.length := by simpa using Nat.lt_of_succ_lt_succ hi
      omega

/-- When the owner search succeeds, `FixedMemoryManager::deallocate` frees
in the hit pool and evicts it exactly when it has become entirely free —
with no more-than-one-pool guard. -/
theorem fixedDeallocate_eq_of_search (m : FixedMemoryManager) (fuel addr p : Nat) (q : PoolRef)
    (hs : searchPool (poolMins m.m_poolList) addr fuel = some p)
    (hq : m.m_poolList.get? p = some q) :
    m.deallocate fuel addr =
      (if (q.pool.deallocate addr).m_elementCount = (q.pool.deallocate addr).m_freeElementCount
       then some { m with m_poolList :=
          removeMemoryPool p (m.m_poolList.set p ⟨q.id, q.pool.deallocate addr⟩) }
       else some { m with m_poolList := m.m_poolList.set p ⟨q.id, q.pool.deallocate addr⟩ }) := by
  unfold FixedMemoryManager.deallocate
  rw [hs]
  simp only [hq, MemoryPool.memoryElementCount, MemoryPool.freeMemoryElementCount]

/-- C1 counterexample: a manager holding a single one-element pool;
allocating the element and freeing it makes the sole pool entirely free, and
`deallocate` evicts it, leaving the manager with zero pools. -/
theorem C1_counterexample_sole_pool_evicted :
    (FixedMemoryManager.run [.alloc 0, .dealloc 10 100]
        (FixedMemoryManager.make 8 1 100)).map (fun m => m.m_poolList.length) =
      some 0 := by
  rfl

/-- C1 amended: `deallocate` evicts a pool that has become entirely free
unconditionally — the pool count is never consulted — so after an eviction
the pool list is exactly one shorter, even when it thereby becomes empty. -/
theorem C1_amended_eviction_unconditional (m : FixedMemoryManager) (fuel addr p : Nat)
    (q : PoolRef)
    (hs : searchPool (poolMins m.m_poolList) addr fuel = some p)
    (hq : m.m_poolList.get? p = some q)
    (hfull : (q.pool.deallocate addr).m_freeElementCount = (q.pool.deallocate addr).m_elementCount) :
    m.deallocate fuel addr =
      some { m with m_poolList :=
        removeMemoryPool p (m.m_poolList.set p ⟨q.id, q.pool.deallocate addr⟩) } ∧
    (removeMemoryPool p (m.m_poolList.set p ⟨q.id, q.pool.deallocate addr⟩)).length =
      m.m_poolList.length - 1 := by
  constructor
  · rw [fixedDeallocate_eq_of_search m fuel addr p q hs hq, if_pos hfull.symm]
  · have hp : p < m.m_poolList.length := by
      by_contra hnp
      rw [List.get?_eq_none.mpr (by omega)] at hq
      cases hq
    unfold removeMemoryPool
    rw [length_eraseIdx_of_lt _ p (by rw [List.length_set]; exact hp), List.length_set]

/-- Witness for the amended C1: on the single-pool manager whose element is
in use, freeing that element triggers the (unguarded) eviction. -/
theorem C1_amended_eviction_unconditional_witness :
    (onePoolExhausted.deallocate 10 100).isSome = true := by
  have h := C1_amended_eviction_unconditional onePoolExhausted 10 100 0
    ⟨0, { m_elementSize := 8, m_elementCount := 1, m_bufferAddressMin := 100,
          m_bufferAddressMax := 107, m_freeElementList := [], m_freeElementCount := 0 }⟩
    rfl rfl rfl
  rw [h.1]
  rfl

/-- C4 counterexample: force a second pool (which becomes the allocation
target), then free its element; the now entirely free target pool is
evicted, and `m_allocPool` (identity 1) no longer refers to any owned pool —
the target reference dangles on the destroyed pool. -/
theorem C4_counterexample_dangling_target :
    (FixedMemoryManager.run [.alloc 0, .alloc 200, .dealloc 10 200]
        (FixedMemoryManager.make 8 1 100)).map
      (fun m => ((m.m_poolList.map PoolRef.id).contains m.m_allocPool, m.m_allocPool,
        m.m_poolList.map PoolRef.id)) =
      some (false, 1, [0]) := by
  rfl

/-- C4 amended: `deallocate` never updates the current-target reference —
not even when it evicts the target pool — so after evicting the target the
reference still names the destroyed pool. -/
theorem C4_amended_target_never_updated (m m1 : FixedMemoryManager) (fuel addr : Nat)
    (h : m.deallocate fuel addr = some m1) : m1.m_allocPool = m.m_allocPool := by
  unfold FixedMemoryManager.deallocate at h
  split at h
  · cases h
  · split at h
    · cases h
    · dsimp only at h
      split at h <;> (cases h; rfl)

/-- Witness for the amended C4: freeing the two-pool manager's target pool
element evicts the target but leaves the reference unchanged. -/
theorem C4_amended_target_never_updated_witness :
    (twoPoolManager.deallocate 10 200).map FixedMemoryManager.m_allocPool =
      some twoPoolManager.m_allocPool := by
  have h := C4_amended_target_never_updated twoPoolManager _ 10 200 rfl
  rw [← h]
  rfl

/-- The search loop state `l = 1, r = 3, p = 1` reproduces itself whenever
the probed pool's minimum address is at most the freed address: the bound
update `p = l + static_cast<USize>(l - r * 0.5f)` recomputes `p = 1`
forever. -/
theorem searchPoolLoop_stuck_three :
    ∀ fuel, searchPoolLoop [100, 200, 300] 300 fuel 1 3 1 = none := by
  intro fuel
  induction fuel with
  | zero => rfl
  | succ k ih => exact ih

/-- With three pools the owner search never terminates for any address at or
above the middle pool's minimum: from the initial state `l = 0, r = 3,
p = 1` the loop enters the self-reproducing state after one iteration. -/
theorem searchPool_three_diverges (fuel : Nat) :
    searchPool [100, 200, 300] 300 fuel = none := by
  cases fuel with
  | zero => rfl
  | succ k => exact searchPoolLoop_stuck_three k

/-- C2 evaluation at the failing input: grow the manager to three pools (at
100, 200, 300); the pointer 300 was produced by the third pool, yet
`deallocate(300)` never terminates — the binary search loops forever instead
of selecting the rightmost pool with minimum address at most 300. -/
theorem C2_owner_search_never_terminates :
    FixedMemoryManager.run [.alloc 0, .alloc 200, .alloc 300]
        (FixedMemoryManager.make 8 1 100) = some threePoolManager ∧
    (twoPoolManager.allocate 300).computedValue = some 300 ∧
    poolMins threePoolManager.m_poolList = [100, 200, 300] ∧
    ∀ fuel, threePoolManager.deallocate fuel 300 = none := by
  refine ⟨rfl, rfl, rfl, ?_⟩
  intro fuel
  unfold FixedMemoryManager.deallocate
  rw [show poolMins threePoolManager.m_poolList = [100, 200, 300] from rfl]
  rw [searchPool_three_diverges fuel]

/-- C3 evaluation at the failing inputs: `FixedMemoryManager::allocate`
computes the pool's pointer (here 100) but returns no value (its body ends
without a `return` statement), so the pooled paths of
`DynamicMemoryManager::allocate` hand back no defined pointer; and on the
oversized path a failed `std::malloc` (null) is returned unchecked instead
of raising `MemoryException`. -/
theorem C3_allocate_no_value_on_success_paths :
    ((FixedMemoryManager.make 8 1 100).allocate 0).isOk = true ∧
    ((FixedMemoryManager.make 8 1 100).allocate 0).computedValue = some 100 ∧
    ((FixedMemoryManager.make 8 1 100).allocate 0).returnedValue = none ∧
    (sampleDynamicManager.allocate 0 0 16).isOk = true ∧
    (sampleDynamicManager.allocate 0 0 16).returnedValue = none ∧
    (sampleDynamicManager.allocate 0 0 300).isOk = true ∧
    (sampleDynamicManager.allocate 0 0 300).returnedValue = some 0 :=
  ⟨rfl, rfl, rfl, rfl, rfl, rfl, rfl⟩

/-- C5: the dispatch chain of the size-class allocator selects the smallest
ladder class at least as large as the request, and requests above the
largest class bypass the pools; 16 and 17 land in different classes, 256 in
the largest class, 257 outside the ladder. -/
theorem C5_size_class_dispatch :
    sizeClassOf 16 = some SIZE16 ∧
    sizeClassOf 17 = some SIZE32 ∧
    sizeClassOf 256 = some SIZE256 ∧
    sizeClassOf 257 = none ∧
    (∀ s k, sizeClassOf s = some k →
      k ∈ sizeClassLadder ∧ s ≤ k ∧ ∀ k2 ∈ sizeClassLadder, s ≤ k2 → k ≤ k2) ∧
    (∀ s, SIZE256 < s → sizeClassOf s = none) := by
  refine ⟨rfl, rfl, rfl, rfl, ?_, ?_⟩
  · intro s k h
    simp only [sizeClassOf, SIZE16, SIZE32, SIZE64, SIZE128, SIZE256] at h
    simp only [sizeClassLadder, SIZE16, SIZE32, SIZE64, SIZE128, SIZE256, List.mem_cons,
      List.not_mem_nil, or_false]
    split_ifs at h <;> cases h <;>
      refine ⟨by omega, by omega, ?_⟩ <;>
      rintro k2 (rfl | rfl | rfl | rfl | rfl) hs2 <;> omega
  · intro s hs
    simp only [SIZE256] at hs
    simp only [sizeClassOf, SIZE16, SIZE32, SIZE64, SIZE128, SIZE256]
    rw [if_neg (by omega), if_neg (by omega), if_neg (by omega), if_neg (by omega),
      if_neg (by omega)]

/-- Witness for C5: the minimality part at the boundary input 17 (class 32),
and the bypass part at 1000. -/
theorem C5_size_class_dispatch_witness :
    17 ≤ 32 ∧ sizeClassOf 1000 = none :=
  ⟨(C5_size_class_dispatch.2.2.2.2.1 17 32 rfl).2.1,
   C5_size_class_dispatch.2.2.2.2.2 1000 (by decide)⟩

/-- C10 evaluation: a zero-byte request takes the `size <= 16` branch — the
whole call behaves identically to `allocate(16)` — consuming one element of
the 16-byte class (free count 2 to 1 in the sample manager) and reporting
no error; but, owing to the missing return in
`FixedMemoryManager::allocate`, no defined pointer is handed back, so the
non-null-return part of the claim fails. -/
theorem C10_zero_size_request :
    sizeClassOf 0 = some SIZE16 ∧
    sampleDynamicManager.allocate 0 0 0 = sampleDynamicManager.allocate 0 0 16 ∧
    (sampleDynamicManager.allocate 0 0 0).isOk = true ∧
    sampleDynamicManager.m_memory16.m_poolList.map
      (fun q => q.pool.m_freeElementCount) = [2] ∧
    ((sampleDynamicManager.allocate 0 0 0).stateD
        sampleDynamicManager).m_memory16.m_poolList.map
      (fun q => q.pool.m_freeElementCount) = [1] ∧
    (sampleDynamicManager.allocate 0 0 0).returnedValue = none :=
  ⟨rfl, rfl, rfl, rfl, rfl, rfl⟩

theorem MemoryPool.allocate_min (m : MemoryPool) :
    (m.allocate).1.m_bufferAddressMin = m.m_bufferAddressMin := by
  unfold MemoryPool.allocate
  split <;> rfl

theorem MemoryPool.allocate_max (m : MemoryPool) :
    (m.allocate).1.m_bufferAddressMax = m.m_bufferAddressMax := by
  unfold MemoryPool.allocate
  split <;> rfl

theorem poolMins_allocInPool (id : Nat) :
    ∀ l : List PoolRef, poolMins (allocInPool id l).1 = poolMins l := by
  intro l
  induction l with
  | nil => rfl
  | cons q rest ih =>
    unfold allocInPool
    split
    · simp only [poolMins, List.map_cons, MemoryPool.allocate_min]
    · simp only [poolMins, List.map_cons]
      rw [show (allocInPool id rest).1.map (fun q => q.pool.m_bufferAddressMin) =
        poolMins (allocInPool id rest).1 from rfl]
      rw [ih]
      rfl

theorem allocInPool_mem (id : Nat) :
    ∀ (l : List PoolRef) (q1 : PoolRef), q1 ∈ (allocInPool id l).1 →
      ∃ q ∈ l, q1.pool.m_bufferAddressMin = q.pool.m_bufferAddressMin ∧
        q1.pool.m_bufferAddressMax = q.pool.m_bufferAddressMax := by
  intro l
  induction l with
  | nil => intro q1 h; cases h
  | cons q rest ih =>
    intro q1 h1
    unfold allocInPool at h1
    split at h1
    · rcases List.mem_cons.mp h1 with rfl | hm
      · exact ⟨q, List.mem_cons_self q rest,
          MemoryPool.allocate_min q.pool, MemoryPool.allocate_max q.pool⟩
      · exact ⟨q1, List.mem_cons_of_mem q hm, rfl, rfl⟩
    · rcases List.mem_cons.mp h1 with rfl | hm
      · exact ⟨q1, List.mem_cons_self q1 rest, rfl, rfl⟩
      · obtain ⟨q2, hq2, he⟩ := ih q1 hm
        exact ⟨q2, List.mem_cons_of_mem q hq2, he⟩

theorem mem_insertPool (p : PoolRef) :
    ∀ (l : List PoolRef) (x : PoolRef), x ∈ insertPool p l ↔ x = p ∨ x ∈ l := by
  intro l
  induction l with
  | nil => intro x; simp [insertPool]
  | cons q rest ih =>
    intro x
    unfold insertPool
    split
    · simp only [List.mem_cons, ih]
      tauto
    · simp only [List.mem_cons]

theorem poolMins_set_deallocate :
    ∀ (l : List PoolRef) (p : Nat) (q : PoolRef) (addr : Nat), l.get? p = some q →
      poolMins (l.set p ⟨q.id, q.pool.deallocate addr⟩) = poolMins l := by
  intro l
  induction l with
  | nil => intro p q addr h; cases h
  | cons a rest ih =>
    intro p q addr h
    cases p with
    | zero =>
      cases h
      simp only [List.set, poolMins, List.map_cons, MemoryPool.deallocate_min]
    | succ j =>
      simp only [List.set, poolMins, List.map_cons]
      rw [show (rest.set j ⟨q.id, q.pool.deallocate addr⟩).map
          (fun q => q.pool.m_bufferAddressMin) =
        poolMins (rest.set j ⟨q.id, q.pool.deallocate addr⟩) from rfl]
      rw [ih j q addr (by simpa using h)]
      rfl

theorem poolMins_eraseIdx :
    ∀ (l : List PoolRef) (p : Nat), poolMins (l.eraseIdx p) = (poolMins l).eraseIdx p := by
  intro l
  induction l with
  | nil => intro p; cases p <;> rfl
  | cons a rest ih =>
    intro p
    cases p with
    | zero => rfl
    | succ j =>
      simp only [List.eraseIdx, poolMins, List.map_cons]
      rw [show (rest.eraseIdx j).map (fun q => q.pool.m_bufferAddressMin) =
        poolMins (rest.eraseIdx j) from rfl]
      rw [ih j]
      rfl

theorem insertPool_pairwise (p : PoolRef) :
    ∀ l : List PoolRef, List.Pairwise (· < ·) (poolMins l) →
      (∀ q ∈ l, q.pool.m_bufferAddressMin ≠ p.pool.m_bufferAddressMin) →
      List.Pairwise (· < ·) (poolMins (insertPool p l)) := by
  intro l
  induction l with
  | nil =>
    intro _ _
    simp [insertPool, poolMins]
  | cons a rest ih =>
    intro hp hne
    simp only [poolMins, List.map_cons, List.pairwise_cons] at hp
    unfold insertPool
    split
    next hlt =>
      simp only [poolMins, List.map_cons, List.pairwise_cons]
      constructor
      · intro b hb
        rw [show (insertPool p rest).map (fun q => q.pool.m_bufferAddressMin) =
          poolMins (insertPool p rest) from rfl] at hb
        obtain ⟨x, hx, rfl⟩ := List.mem_map.mp hb
        rcases (mem_insertPool p rest x).mp hx with rfl | hxr
        · exact hlt
        · exact hp.1 _ (List.mem_map_of_mem _ hxr)
      · exact ih hp.2 (fun q hq => hne q (List.mem_cons_of_mem a hq))
    next hge =>
      have hpa : p.pool.m_bufferAddressMin < a.pool.m_bufferAddressMin := by
        have := hne a (List.mem_cons_self a rest)
        omega
      simp only [poolMins, List.map_cons, List.pairwise_cons]
      refine ⟨?_, ?_, hp.2⟩
      · intro b hb
        rcases List.mem_cons.mp hb with rfl | hbr
        · exact hpa
        · exact Nat.lt_trans hpa (hp.1 _ hbr)
      · exact hp.1

/-- The combined reachability invariant behind C7: the pool sequence is
strictly sorted by minimum buffer address, and every pool's recorded span is
well-formed (`min ≤ max`). -/
theorem fixedReach_sorted_aux (m : FixedMemoryManager) (h : FixedReach m) :
    List.Pairwise (· < ·) (poolMins m.m_poolList) ∧
    ∀ q ∈ m.m_poolList, q.pool.m_bufferAddressMin ≤ q.pool.m_bufferAddressMax := by
  induction h with
  | init size count base hbase =>
    constructor
    · simp [FixedMemoryManager.make, poolMins]
    · intro q hq
      rcases List.mem_singleton.mp hq with rfl
      rw [MemoryPool.make_min, MemoryPool.make_max]
      have := elementBytes_ge_two size count
      omega
  | alloc m st b c r hm hfresh hstep ih =>
    unfold FixedMemoryManager.allocate at hstep
    split at hstep
    · cases hstep
    · split at hstep
      · split at hstep
        · cases hstep
        · -- growth branch
          dsimp only [addMemoryPool] at hstep
          injection hstep with h1 h2 h3
          subst h1
          dsimp only
          constructor
          · rw [show poolMins ((allocInPool m.nextId
                (insertPool ⟨m.nextId, MemoryPool.make m.m_elementSize m.m_elementCount b⟩
                  m.m_poolList)).1) =
              poolMins (insertPool ⟨m.nextId,
                MemoryPool.make m.m_elementSize m.m_elementCount b⟩ m.m_poolList)
              from poolMins_allocInPool _ _]
            apply insertPool_pairwise _ _ ih.1
            intro q hq
            have hproj : (⟨m.nextId,
                MemoryPool.make m.m_elementSize m.m_elementCount b⟩ : PoolRef).pool =
                MemoryPool.make m.m_elementSize m.m_elementCount b := rfl
            rw [hproj, MemoryPool.make_min]
            have hwf : b ≤ (MemoryPool.make m.m_elementSize m.m_elementCount b).m_bufferAddressMax := by
              rw [MemoryPool.make_max]
              have := elementBytes_ge_two m.m_elementSize m.m_elementCount
              omega
            have hqwf := ih.2 q hq
            rcases hfresh.2 q hq with hlt | hgt
            · omega
            · rw [MemoryPool.make_min] at hgt
              omega
          · intro q1 hq1
            obtain ⟨q2, hq2, hemin, hemax⟩ := allocInPool_mem _ _ q1 hq1
            rw [hemin, hemax]
            rcases (mem_insertPool _ _ q2).mp hq2 with rfl | hq2r
            · rw [MemoryPool.make_min, MemoryPool.make_max]
              have := elementBytes_ge_two m.m_elementSize m.m_elementCount
              omega
            · exact ih.2 q2 hq2r
      · -- no-growth branch
        injection hstep with h1 h2 h3
        subst h1
        dsimp only
        constructor
        · rw [show poolMins ((allocInPool m.m_allocPool m.m_poolList).1) =
            poolMins m.m_poolList from poolMins_allocInPool _ _]
          exact ih.1
        · intro q1 hq1
          obtain ⟨q2, hq2, hemin, hemax⟩ := allocInPool_mem _ _ q1 hq1
          rw [hemin, hemax]
          exact ih.2 q2 hq2
  | dealloc m m1 fuel addr hm hstep ih =>
    unfold FixedMemoryManager.deallocate at hstep
    split at hstep
    · cases hstep
    next p hsearch =>
      split at hstep
      · cases hstep
      next q hq =>
        dsimp only at hstep
        have hmins : poolMins (m.m_poolList.set p ⟨q.id, q.pool.deallocate addr⟩) =
            poolMins m.m_poolList := poolMins_set_deallocate m.m_poolList p q addr hq
        have hspan : ∀ q1 ∈ m.m_poolList.set p ⟨q.id, q.pool.deallocate addr⟩,
            q1.pool.m_bufferAddressMin ≤ q1.pool.m_bufferAddressMax := by
          intro q1 hq1
          rcases List.mem_or_eq_of_mem_set hq1 with hmem | rfl
          · exact ih.2 q1 hmem
          · rw [MemoryPool.deallocate_min, MemoryPool.deallocate_max]
            exact ih.2 q (List.get?_mem hq)
        split at hstep <;> cases hstep
        · constructor
          · unfold removeMemoryPool
            rw [poolMins_eraseIdx, hmins]
            exact ih.1.sublist (List.eraseIdx_sublist _ p)
          · intro q1 hq1
            exact hspan q1 ((List.eraseIdx_sublist _ p).subset hq1)
        · constructor
          · rw [hmins]; exact ih.1
          · exact hspan

/-- C7: after any sequence of allocate/deallocate calls (every grown pool
receiving a fresh disjoint buffer from the system allocator), the manager's
pool sequence remains sorted in strictly ascending order of the pools'
minimum buffer addresses: construction starts with one pool, `addMemoryPool`
inserts at the sort-preserving position, and `removeMemoryPool` keeps the
remaining pools' relative order. -/
theorem C7_pool_list_sorted_by_address (m : FixedMemoryManager) (h : FixedReach m) :
    List.Pairwise (· < ·) (poolMins m.m_poolList) :=
  (fixedReach_sorted_aux m h).1

/-- Witness for C7: the two-pool state grown from the one-pool manager is
reachable, and its pool sequence is sorted. -/
theorem C7_pool_list_sorted_by_address_witness :
    List.Pairwise (· < ·) (poolMins twoPoolManager.m_poolList) := by
  have h0 : FixedReach (FixedMemoryManager.make 8 1 100) :=
    FixedReach.init 8 1 100 (by decide)
  have h1 : FixedReach onePoolExhausted :=
    FixedReach.alloc (FixedMemoryManager.make 8 1 100) onePoolExhausted 500
      (some 100) none h0 ⟨by decide, by decide⟩ rfl
  have h2 : FixedReach twoPoolManager :=
    FixedReach.alloc onePoolExhausted twoPoolManager 200
      (some 200) none h1 ⟨by decide, by decide⟩ rfl
  exact C7_pool_list_sorted_by_address twoPoolManager h2

/-- A call made in the steady state leaves the init count alone and keeps
delegating to the same instance. -/
theorem globalStep_preserves_inv (op : GlobalOp) (s s1 : GlobalMemoryState)
    (hinv : GlobalInv s) (h : globalStep op s = some s1) : GlobalInv s1 := by
  obtain ⟨hc, d, hd⟩ := hinv
  have honce : callOnceInitGlobalMemory s = s := by
    unfold callOnceInitGlobalMemory
    rw [hd]
  unfold globalStep at h
  rw [honce] at h
  dsimp only at h
  rw [hd] at h
  cases op with
  | alloc sysPtr newBase size =>
    dsimp only at h
    split at h
    next d1 _ hok => cases h; exact ⟨hc, d1, rfl⟩
    next => cases h
  | dealloc fuel addr size =>
    dsimp only at h
    cases hdel : d.deallocate fuel addr size with
    | none => rw [hdel] at h; cases h
    | some d1 =>
      rw [hdel] at h
      cases h
      exact ⟨hc, d1, rfl⟩
  | getPoolElementCount cls =>
    cases h
    exact ⟨hc, d, hd⟩
  | setPoolElementCount cls n =>
    cases h
    exact ⟨hc, d.setPoolElementCount cls n, rfl⟩

theorem globalRun_preserves_inv :
    ∀ (ops : List GlobalOp) (s s1 : GlobalMemoryState),
      GlobalInv s → globalRun ops s = some s1 → GlobalInv s1 := by
  intro ops
  induction ops with
  | nil =>
    intro s s1 hi h
    cases h
    exact hi
  | cons op rest ih =>
    intro s s1 hi h
    unfold globalRun at h
    split at h
    next s2 hstep => exact ih s2 s1 (globalStep_preserves_inv op s s2 hi hstep) h
    next => cases h

/-- C9: across every serialized sequence of facade calls, the one-time
construction runs exactly once, triggered by the first call of any kind;
afterwards the contained manager is never reconstructed or replaced — every
later call delegates to the instance (identity 0) created by that single
init. -/
theorem C9_global_init_exactly_once (ops : List GlobalOp) (s1 : GlobalMemoryState)
    (h : globalRun ops initialGlobalMemoryState = some s1) :
    (ops = [] → s1.g_initCount = 0 ∧ s1.g_globalMemoryControl = none) ∧
    (ops ≠ [] → s1.g_initCount = 1 ∧ ∃ d, s1.g_globalMemoryControl = some (0, d)) := by
  constructor
  · rintro rfl
    cases h
    exact ⟨rfl, rfl⟩
  · intro hne
    cases ops with
    | nil => exact absurd rfl hne
    | cons op rest =>
      unfold globalRun at h
      split at h
      next s2 hstep =>
        have hinv2 : GlobalInv s2 := by
          have heq : globalStep op initialGlobalMemoryState =
              globalStep op (callOnceInitGlobalMemory initialGlobalMemoryState) := rfl
          rw [heq] at hstep
          exact globalStep_preserves_inv op _ s2 ⟨rfl, initGlobalMemory, rfl⟩ hstep
        exact globalRun_preserves_inv rest s2 s1 hinv2 h
      next => cases h

/-- Witness for C9: two consecutive getter calls construct the manager once
and leave the init count at one. -/
theorem C9_global_init_exactly_once_witness :
    (globalRun [GlobalOp.getPoolElementCount SizeClass.s16,
        GlobalOp.getPoolElementCount SizeClass.s16] initialGlobalMemoryState).map
      GlobalMemoryState.g_initCount = some 1 := by
  have h := C9_global_init_exactly_once
    [GlobalOp.getPoolElementCount SizeClass.s16, GlobalOp.getPoolElementCount SizeClass.s16]
    _ rfl
  have h1 := (h.2 (by simp)).1
  rw [← h1]
  rfl

end FuraiEngine
